import Mathlib

/-!
Verification of the Document Ingestion & Multi-Model Inference Pipeline of
the AI-powered study assistant (src/app_production.py) against its
natural-language specification.

Texts are modelled as `List Char`.  Model capabilities (summarizer, QA,
quiz generator) are abstract function parameters with the input/output
shapes the code relies on.  Model confidence scores are modelled as
rationals.
-/

/-- The chunking loop of `StudyAssistantApp.summarization_interface`
(app_production.py:456):
`chunks = [text_content[i:i+max_input] for i in range(0, len(text_content), max_input)]`.
The offset `i` walks `range(0, len(text), maxI)`, i.e. steps of `maxI` with no
overlap, and each chunk is the slice `[i, i+maxI)` clipped to the text length.
Fuel (`text.length + 1` at the top level) bounds the loop, which advances by
`maxI ≥ 1` per iteration, so the fuel is never exhausted. -/
def codeChunksAux (maxI : Nat) (text : List Char) : Nat → Nat → List (List Char)
  | 0, _ => []
  | fuel + 1, i =>
    if i < text.length then ((text.drop i).take maxI) :: codeChunksAux maxI text fuel (i + maxI)
    else []

/-- The chunk list of app_production.py:456 (`max_input` is the parameter;
the source instantiates it with `3000`). -/
def codeChunks (maxI : Nat) (text : List Char) : List (List Char) :=
  codeChunksAux maxI text (text.length + 1) 0

/-- Modelled from the spec: the spec's Chunker contract (§4.2) takes an
`overlap_chars` parameter and walks in steps of `max_window_chars -
overlap_chars`; the source realizes only the instance with overlap `0`
(app_production.py:456 steps by the full window size), so the
overlap-parameterized splitter is taken from the spec's algorithm: emit the
window `[o, o + maxW)` clipped to the text, stop once a window reaches the
end of the text, otherwise advance by `maxW - ovl`. -/
def splitAux (maxW ovl : Nat) (text : List Char) : Nat → Nat → List (List Char)
  | 0, _ => []
  | fuel + 1, o =>
    let w := (text.drop o).take maxW
    if text.length ≤ o + maxW then [w]
    else w :: splitAux maxW ovl text fuel (o + (maxW - ovl))

/-- Modelled from the spec: the Chunker's `split(text, max_window_chars,
overlap_chars)` (§4.2), starting at offset 0. -/
def splitWindows (maxW ovl : Nat) (text : List Char) : List (List Char) :=
  splitAux maxW ovl text (text.length + 1) 0

/-- Concatenation of a window sequence with the overlap trimmed from each
window after the first (the reconstruction of the round-trip property). -/
def reassemble (ovl : Nat) : List (List Char) → List Char
  | [] => []
  | w :: ws => w ++ (ws.map (List.drop ovl)).flatten

theorem splitAux_trimmed (maxW ovl : Nat) (text : List Char) (hov : ovl < maxW) :
    ∀ fuel o : Nat, text.length + 1 ≤ o + fuel →
      ((splitAux maxW ovl text fuel o).map (List.drop ovl)).flatten = text.drop (o + ovl) := by
  intro fuel
  induction fuel with
  | zero =>
    intro o h
    simp only [splitAux, List.map_nil, List.flatten_nil]
    exact (List.drop_eq_nil_of_le (by omega)).symm
  | succ f ih =>
    intro o h
    simp only [splitAux]
    by_cases hend : text.length ≤ o + maxW
    · rw [if_pos hend]
      simp only [List.map_cons, List.map_nil, List.flatten_cons, List.flatten_nil,
        List.append_nil]
      rw [List.drop_take, List.drop_drop]
      exact List.take_of_length_le (by simp only [List.length_drop]; omega)
    · rw [if_neg hend]
      simp only [List.map_cons, List.flatten_cons]
      rw [ih (o + (maxW - ovl)) (by omega)]
      rw [List.drop_take, List.drop_drop]
      have h1 : o + (maxW - ovl) + ovl = o + ovl + (maxW - ovl) := by omega
      rw [h1]
      have hta := List.take_append_drop (maxW - ovl) (text.drop (o + ovl))
      rw [List.drop_drop] at hta
      exact hta

theorem codeChunksAux_flatten (maxI : Nat) (hm : 0 < maxI) (text : List Char) :
    ∀ fuel i : Nat, text.length ≤ i + fuel →
      (codeChunksAux maxI text fuel i).flatten = text.drop i := by
  intro fuel
  induction fuel with
  | zero =>
    intro i h
    simp only [codeChunksAux, List.flatten_nil]
    exact (List.drop_eq_nil_of_le (by omega)).symm
  | succ f ih =>
    intro i h
    simp only [codeChunksAux]
    by_cases hi : i < text.length
    · rw [if_pos hi]
      simp only [List.flatten_cons]
      rw [ih (i + maxI) (by omega), ← List.drop_drop]
      exact List.take_append_drop maxI (text.drop i)
    · rw [if_neg hi]
      simp only [List.flatten_nil]
      exact (List.drop_eq_nil_of_le (by omega)).symm

theorem reassemble_zero (l : List (List Char)) : reassemble 0 l = l.flatten := by
  cases l with
  | nil => rfl
  | cons w ws =>
    have h0 : (List.drop 0 : List Char → List Char) = id := funext fun l => List.drop_zero l
    simp [reassemble, h0]

/-- C1: for every text and every valid configuration
`max_window_chars > overlap_chars >= 0`, concatenating the Chunker's windows
with the overlap trimmed from each window after the first reconstructs the
original text exactly; the source's chunker (app_production.py:456), which
realizes the overlap-0 instance, also reconstructs the text exactly
(trimming an overlap of 0 is the identity). -/
theorem chunker_roundtrip (text : List Char) (maxW ovl : Nat) (hov : ovl < maxW) :
    reassemble ovl (splitWindows maxW ovl text) = text ∧
    reassemble 0 (codeChunks maxW text) = text := by
  constructor
  · show reassemble ovl (splitAux maxW ovl text (text.length + 1) 0) = text
    simp only [splitAux]
    by_cases hend : text.length ≤ 0 + maxW
    · rw [if_pos hend]
      simp only [reassemble, List.map_nil, List.flatten_nil, List.append_nil, List.drop_zero]
      exact List.take_of_length_le (by omega)
    · rw [if_neg hend]
      simp only [reassemble]
      rw [splitAux_trimmed maxW ovl text hov text.length (0 + (maxW - ovl)) (by omega)]
      simp only [List.drop_zero]
      have h1 : 0 + (maxW - ovl) + ovl = maxW := by omega
      rw [h1]
      exact List.take_append_drop maxW text
  · rw [reassemble_zero]
    have h0 := codeChunksAux_flatten maxW (by omega) text (text.length + 1) 0 (by omega)
    simpa using h0

/-- Witness for C1 at a concrete input: a 7-character text, window 3,
overlap 1. -/
theorem chunker_roundtrip_witness :
    (1 : Nat) < 3 ∧
      (reassemble 1 (splitWindows 3 1 ['a', 'b', 'c', 'd', 'e', 'f', 'g']) =
          ['a', 'b', 'c', 'd', 'e', 'f', 'g'] ∧
        reassemble 0 (codeChunks 3 ['a', 'b', 'c', 'd', 'e', 'f', 'g']) =
          ['a', 'b', 'c', 'd', 'e', 'f', 'g']) :=
  ⟨by omega, chunker_roundtrip ['a', 'b', 'c', 'd', 'e', 'f', 'g'] 3 1 (by omega)⟩

theorem codeChunksAux_getElem? (maxI : Nat) (hm : 0 < maxI) (text : List Char) :
    ∀ fuel i : Nat, text.length ≤ i + fuel → ∀ j : Nat,
      (codeChunksAux maxI text fuel i)[j]? =
        if i + j * maxI < text.length then some ((text.drop (i + j * maxI)).take maxI)
        else none := by
  intro fuel
  induction fuel with
  | zero =>
    intro i h j
    have hj : ¬ (i + j * maxI < text.length) := by
      have : 0 ≤ j * maxI := Nat.zero_le _
      omega
    simp only [codeChunksAux, List.getElem?_nil]
    rw [if_neg hj]
  | succ f ih =>
    intro i h j
    simp only [codeChunksAux]
    by_cases hi : i < text.length
    · rw [if_pos hi]
      cases j with
      | zero =>
        simp only [List.getElem?_cons_zero, Nat.zero_mul, Nat.add_zero]
        rw [if_pos hi]
      | succ j' =>
        simp only [List.getElem?_cons_succ]
        rw [ih (i + maxI) (by omega) j']
        have harith : i + maxI + j' * maxI = i + (j' + 1) * maxI := by ring
        rw [harith]
    · rw [if_neg hi]
      have hj : ¬ (i + j * maxI < text.length) := by
        have : 0 ≤ j * maxI := Nat.zero_le _
        omega
      simp only [List.getElem?_nil]
      rw [if_neg hj]

theorem codeChunks_getElem? (maxI : Nat) (hm : 0 < maxI) (text : List Char) (j : Nat) :
    (codeChunks maxI text)[j]? =
      if j * maxI < text.length then some ((text.drop (j * maxI)).take maxI) else none := by
  have h := codeChunksAux_getElem? maxI hm text (text.length + 1) 0 (by omega) j
  simpa using h

/-- C2 counterexample: the claim predicts that a 9000-character text chunked
with `max_window_chars = 4000` and `overlap_chars = 200` yields the windows
`[0,4000)`, `[3800,7800)`, `[7600,9000)` — on an all-`'a'` text, windows of
lengths 4000, 4000 and 1400.  The source chunker has no overlap parameter: at
window size 4000 it steps by 4000 and its third window is `[8000,9000)`, of
length 1000, so the claimed window list is not produced. -/
theorem chunker_overlap_counterexample :
    codeChunks 4000 (List.replicate 9000 'a') ≠
      [List.replicate 4000 'a', List.replicate 4000 'a', List.replicate 1400 'a'] := by
  intro hEq
  have h2 : (codeChunks 4000 (List.replicate 9000 'a'))[2]? = some (List.replicate 1400 'a') := by
    rw [hEq]; rfl
  rw [codeChunks_getElem? 4000 (by omega) _ 2] at h2
  rw [if_pos (by rw [List.length_replicate]; omega)] at h2
  rw [List.drop_replicate, List.take_replicate] at h2
  have h3 := congrArg (fun o => (Option.map List.length o).getD 0) h2
  simp only [Option.map_some', Option.getD_some, List.length_replicate] at h3
  omega

/-- C2 (amended): the chunker walks left to right in steps of its single
window-size parameter `max_input` with no overlap, each window covering
`[j*max_input, (j+1)*max_input)` clipped to the text length; a
9000-character text chunked with window size 3000 (the source's `max_input`)
yields exactly the three windows `[0,3000)`, `[3000,6000)`, `[6000,9000)`. -/
theorem chunker_step_characterization :
    (∀ (text : List Char) (m : Nat), 0 < m → ∀ j : Nat,
        (codeChunks m text)[j]? =
          if j * m < text.length then some ((text.drop (j * m)).take m) else none) ∧
    (codeChunks 3000 (List.replicate 9000 'a')).length = 3 ∧
    (codeChunks 3000 (List.replicate 9000 'a'))[0]? = some (List.replicate 3000 'a') ∧
    (codeChunks 3000 (List.replicate 9000 'a'))[1]? = some (List.replicate 3000 'a') ∧
    (codeChunks 3000 (List.replicate 9000 'a'))[2]? = some (List.replicate 3000 'a') := by
  have hchar := fun (text : List Char) (m : Nat) (hm : 0 < m) (j : Nat) =>
    codeChunks_getElem? m hm text j
  refine ⟨hchar, ?_, ?_, ?_, ?_⟩
  · have h3 : (codeChunks 3000 (List.replicate 9000 'a'))[3]? = none := by
      rw [hchar _ 3000 (by omega) 3, if_neg (by rw [List.length_replicate]; omega)]
    have h2 : (codeChunks 3000 (List.replicate 9000 'a'))[2]? ≠ none := by
      rw [hchar _ 3000 (by omega) 2, if_pos (by rw [List.length_replicate]; omega)]
      exact Option.some_ne_none _
    rw [List.getElem?_eq_none_iff] at h3
    rw [Ne, List.getElem?_eq_none_iff] at h2
    omega
  · rw [hchar _ 3000 (by omega) 0, if_pos (by rw [List.length_replicate]; omega)]
    rw [List.drop_replicate, List.take_replicate]
    norm_num
  · rw [hchar _ 3000 (by omega) 1, if_pos (by rw [List.length_replicate]; omega)]
    rw [List.drop_replicate, List.take_replicate]
    norm_num
  · rw [hchar _ 3000 (by omega) 2, if_pos (by rw [List.length_replicate]; omega)]
    rw [List.drop_replicate, List.take_replicate]
    norm_num

/-- Witness for C2's amended characterization at a concrete input: window
size 2 on a 5-character text gives windows at offsets 0, 2, 4. -/
theorem chunker_step_witness :
    (0 : Nat) < 2 ∧
      (codeChunks 2 ['a', 'b', 'c', 'd', 'e'])[1]? =
        (if 1 * 2 < (['a', 'b', 'c', 'd', 'e'] : List Char).length
          then some (((['a', 'b', 'c', 'd', 'e'] : List Char).drop (1 * 2)).take 2) else none) :=
  ⟨by omega, chunker_step_characterization.1 ['a', 'b', 'c', 'd', 'e'] 2 (by omega) 1⟩

/-- Python's `sep.join(parts)`: the separator appears between consecutive
parts only. -/
def pyJoin (sep : List Char) : List (List Char) → List Char
  | [] => []
  | [x] => x
  | x :: y :: xs => x ++ sep ++ pyJoin sep (y :: xs)

/-- The loop of `DocumentProcessor.extract_text_from_pdf`
(app_production.py:134-138): `text = ""` and then, for each page in order,
`text += page.extract_text() + "\n"`.  The per-page extracted strings are the
input; a page with no extractable text contributes `[]`. -/
def extract_text_from_pdf (pages : List (List Char)) : List Char :=
  pages.foldl (fun acc p => acc ++ p ++ ['\n']) []

theorem extract_pdf_foldl (pages : List (List Char)) (acc : List Char) :
    pages.foldl (fun a p => a ++ p ++ ['\n']) acc =
      acc ++ (pages.map (fun p => p ++ ['\n'])).flatten := by
  induction pages generalizing acc with
  | nil => simp
  | cons p ps ih =>
    rw [List.foldl_cons, ih]
    simp [List.append_assoc]

theorem flattenSep_eq_pyJoin (c : Char) :
    ∀ pages : List (List Char), pages ≠ [] →
      (pages.map (fun p => p ++ [c])).flatten = pyJoin [c] pages ++ [c] := by
  intro pages
  induction pages with
  | nil => intro h; exact absurd rfl h
  | cons x xs ih =>
    intro _
    cases xs with
    | nil => simp [pyJoin]
    | cons y ys =>
      have h := ih (by simp)
      simp only [List.map_cons, List.flatten_cons] at h
      simp only [List.map_cons, List.flatten_cons, pyJoin]
      rw [h]
      simp [List.append_assoc]

/-- C9 counterexample: on a single PDF page with text `"a"`, the claim says
extraction returns the page texts joined by newlines with no other characters
added, i.e. `"a"`; the source appends a newline after every page, including
the last, and returns `"a\n"`. -/
theorem pdf_newline_counterexample :
    extract_text_from_pdf [['a']] ≠ pyJoin ['\n'] [['a']] ∧
    extract_text_from_pdf [['a']] = ['a', '\n'] := by
  constructor
  · decide
  · decide

/-- C9 (amended): PDF extraction concatenates each page's text followed by a
newline, in page order — equivalently, for a nonempty page list it returns
the page texts joined by newline separators plus one trailing newline; a
page yielding no extractable text contributes just its newline and
extraction continues with the remaining pages. -/
theorem pdf_join_trailing_newline (pages : List (List Char)) :
    (pages ≠ [] → extract_text_from_pdf pages = pyJoin ['\n'] pages ++ ['\n']) ∧
    (∀ ps qs : List (List Char),
      extract_text_from_pdf (ps ++ [] :: qs) =
        extract_text_from_pdf ps ++ '\n' :: extract_text_from_pdf qs) := by
  constructor
  · intro hne
    unfold extract_text_from_pdf
    rw [extract_pdf_foldl pages []]
    simp only [List.nil_append]
    exact flattenSep_eq_pyJoin '\n' pages hne
  · intro ps qs
    unfold extract_text_from_pdf
    rw [extract_pdf_foldl, extract_pdf_foldl, extract_pdf_foldl]
    simp [List.append_assoc]

/-- Witness for C9's amended statement on two concrete pages. -/
theorem pdf_join_witness :
    ([['a'], ['b']] : List (List Char)) ≠ [] ∧
      extract_text_from_pdf [['a'], ['b']] = pyJoin ['\n'] [['a'], ['b']] ++ ['\n'] :=
  ⟨by decide, (pdf_join_trailing_newline [['a'], ['b']]).1 (by decide)⟩

/-- Python's substring containment `pat in s`. -/
def isSubstring (pat : List Char) : List Char → Bool
  | [] => List.isPrefixOf pat []
  | c :: rest => List.isPrefixOf pat (c :: rest) || isSubstring pat rest

/-- An upload as `DocumentProcessor.process_document` sees it: a filename, a
declared MIME type string, and opaque content of type `β`. -/
structure UploadedFile (β : Type) where
  name : String
  ftype : String
  content : β

/-- The lowered filename, `file_name = uploaded_file.name.lower()`
(app_production.py:170). -/
def lowerName {β : Type} (f : UploadedFile β) : List Char :=
  f.name.toList.map Char.toLower

/-- The PDF branch test of app_production.py:172:
`'pdf' in file_type or file_name.endswith('.pdf')`. -/
def pdfGuard {β : Type} (f : UploadedFile β) : Bool :=
  isSubstring "pdf".toList f.ftype.toList || List.isSuffixOf ".pdf".toList (lowerName f)

/-- The DOCX branch test of app_production.py:174:
`'word' in file_type or file_name.endswith('.docx')`. -/
def docxGuard {β : Type} (f : UploadedFile β) : Bool :=
  isSubstring "word".toList f.ftype.toList || List.isSuffixOf ".docx".toList (lowerName f)

/-- The TXT branch test of app_production.py:176:
`'text' in file_type or file_name.endswith('.txt')`. -/
def txtGuard {β : Type} (f : UploadedFile β) : Bool :=
  isSubstring "text".toList f.ftype.toList || List.isSuffixOf ".txt".toList (lowerName f)

/-- `DocumentProcessor.process_document` (app_production.py:164-180): `None`
upload yields `None`; otherwise dispatch on the three guards in order, each
branch calling its extractor (which returns `none` on any extraction
failure, as each `extract_text_from_*` catches its exceptions and returns
`None`); an upload matching no guard yields `None`. -/
def process_document {β : Type} (ePdf eDocx eTxt : β → Option (List Char)) :
    Option (UploadedFile β) → Option (List Char)
  | none => none
  | some f =>
    if pdfGuard f then ePdf f.content
    else if docxGuard f then eDocx f.content
    else if txtGuard f then eTxt f.content
    else none

/-- C10: `process_document` is total over its failure modes: a missing
upload yields `none`; an upload matching none of the PDF/DOCX/TXT guards
yields `none`; and whenever the extractors fail (return `none`), the result
is `none` — every failure kind is observed by the caller as the single value
`none`, never as an exception (the embedding is a total function). -/
theorem process_document_total {β : Type} (ePdf eDocx eTxt : β → Option (List Char)) :
    process_document ePdf eDocx eTxt none = none ∧
    (∀ f : UploadedFile β, pdfGuard f = false → docxGuard f = false → txtGuard f = false →
      process_document ePdf eDocx eTxt (some f) = none) ∧
    (∀ f : UploadedFile β, ePdf f.content = none → eDocx f.content = none →
      eTxt f.content = none → process_document ePdf eDocx eTxt (some f) = none) := by
  refine ⟨rfl, ?_, ?_⟩
  · intro f h1 h2 h3
    simp [process_document, h1, h2, h3]
  · intro f h1 h2 h3
    by_cases g1 : pdfGuard f <;> by_cases g2 : docxGuard f <;> by_cases g3 : txtGuard f <;>
      simp [process_document, g1, g2, g3, h1, h2, h3]

/-- Witness for C10: a `.zip` upload with MIME type `application/zip`
matches no guard and is rejected as `none`. -/
theorem process_document_total_witness :
    pdfGuard (⟨"x.zip", "application/zip", 0⟩ : UploadedFile Nat) = false ∧
    docxGuard (⟨"x.zip", "application/zip", 0⟩ : UploadedFile Nat) = false ∧
    txtGuard (⟨"x.zip", "application/zip", 0⟩ : UploadedFile Nat) = false ∧
    process_document (fun _ => none) (fun _ => none) (fun _ => none)
      (some (⟨"x.zip", "application/zip", 0⟩ : UploadedFile Nat)) = none :=
  ⟨by decide, by decide, by decide,
    (process_document_total _ _ _).2.1 _ (by decide) (by decide) (by decide)⟩

/-- An extractive-QA capability result as the code reads it
(`result['answer']`, `result['score']`); the confidence score is modelled as
a rational. -/
structure QAResult where
  answer : List Char
  score : ℚ
deriving DecidableEq

/-- What the question interface surfaces for one dispatch: the answer, its
confidence, and whether the low-confidence warning fires
(app_production.py:390-395). -/
structure QAOutcome where
  answer : List Char
  score : ℚ
  lowConfidence : Bool
deriving DecidableEq

/-- An extractive-QA capability: `(question, context) ↦ result`, or a raised
exception (modelled as `Except.error` with the message). -/
def QACapability : Type := List Char → List Char → Except (List Char) QAResult

/-- `max_context = 2000` of app_production.py:382. -/
def max_context : Nat := 2000

/-- The Question dispatch of `question_answering_interface`
(app_production.py:379-395): truncate the document text to its first
`max_context` characters, call the QA pipeline once with
`(question, context)`, surface the answer and score, and set the
low-confidence flag exactly when `score < 0.3`.  The second component
records the `(question, context)` arguments of each pipeline call made. -/
def questionTask (qa : QACapability) (text question : List Char) :
    Except (List Char) QAOutcome × List (List Char × List Char) :=
  let context := text.take max_context
  (match qa question context with
    | .ok r => .ok ⟨r.answer, r.score, decide (r.score < 3 / 10)⟩
    | .error e => .error e,
   [(question, context)])

/-- C6: the Question task truncates (does not chunk) the text to the single
context window `text.take max_context`, which starts at offset 0, and
dispatches exactly once; when the capability returns a result, the answer is
surfaced as a success tagged `lowConfidence` exactly when the score is below
the 0.3 threshold — low confidence never produces a failure, and a failure
arises only from the dispatch itself raising. -/
theorem question_task_spec (qa : QACapability) (text question : List Char) :
    (questionTask qa text question).2 = [(question, text.take max_context)] ∧
    (∀ r : QAResult, qa question (text.take max_context) = .ok r →
      (questionTask qa text question).1 = .ok ⟨r.answer, r.score, decide (r.score < 3 / 10)⟩) ∧
    (∀ e : List Char, qa question (text.take max_context) = .error e →
      (questionTask qa text question).1 = .error e) := by
  refine ⟨rfl, ?_, ?_⟩
  · intro r h
    simp [questionTask, h]
  · intro e h
    simp [questionTask, h]

/-- Witness for C6: a capability answering with confidence 1/10 (< 0.3)
still yields a success, tagged low-confidence. -/
theorem question_task_witness :
    (questionTask (fun _ _ => Except.ok ⟨['x'], 1 / 10⟩) ['a', 'b'] ['q']).1 =
      Except.ok ⟨['x'], 1 / 10, true⟩ := by
  have h := (question_task_spec (fun _ _ => Except.ok ⟨['x'], 1 / 10⟩) ['a', 'b'] ['q']).2.1
    ⟨['x'], 1 / 10⟩ rfl
  rw [h]
  norm_num

/-- The gate in front of the question UI (app_production.py:368):
`if st.session_state.document_text:` — a Python-falsy (empty) text skips the
whole question section, so nothing is dispatched (`none`); otherwise the
Question task runs. -/
def questionFlow (qa : QACapability) (text question : List Char) :
    Option (Except (List Char) QAOutcome × List (List Char × List Char)) :=
  if text = [] then none else some (questionTask qa text question)

/-- C8 counterexample: with an empty extracted text the claim demands a
dispatch with context `""` yielding an answer or a `DispatchFailure`; the
code's truthiness gate instead skips the question section entirely — no
dispatch, no result — even for a capability that would answer. -/
theorem empty_question_counterexample :
    questionFlow (fun _ _ => Except.ok ⟨['y'], 1⟩) [] ['q'] = none := rfl

/-- C8 (amended): a Question task on an empty extracted text never
dispatches: the empty string is falsy, so the question interface is skipped
and neither an answer nor a failure is produced; any nonempty text passes
the gate and dispatches exactly once through the Question task. -/
theorem empty_text_gate (qa : QACapability) (question : List Char) :
    questionFlow qa [] question = none ∧
    (∀ text : List Char, text ≠ [] →
      questionFlow qa text question = some (questionTask qa text question)) := by
  constructor
  · rfl
  · intro t ht
    simp [questionFlow, ht]

/-- Witness for C8's amended statement: a one-character text passes the
gate. -/
theorem empty_text_gate_witness :
    (['a'] : List Char) ≠ [] ∧
      questionFlow (fun _ _ => Except.ok ⟨['y'], 1⟩) ['a'] ['q'] =
        some (questionTask (fun _ _ => Except.ok ⟨['y'], 1⟩) ['a'] ['q']) :=
  ⟨by decide, (empty_text_gate _ _).2 ['a'] (by decide)⟩

/-- The process-wide state relevant to model loading: the
`@st.cache_resource` memo of `AIModels.load_models` (app_production.py:83)
and `st.session_state.models` (app_production.py:189-190, 253).
`cache = some r` means the decorated function has already returned `r` (a
successfully built handle set `some m`, or `none` — the `except` branch of
`load_models` returns `None` instead of raising, app_production.py:123-125). -/
structure RegistryState (M : Type) where
  cache : Option (Option M)
  models : Option M
deriving DecidableEq

/-- `AIModels.load_models` under `@st.cache_resource`: per Streamlit's
cache contract, a cached return value (including a cached `None`) is
returned without re-running the body; only when no value is cached does the
body run, producing `outcome` (`some models` on success, `none` when the
body catches an exception) and caching it.  Returns
`((result, new cache), body ran?)`. -/
def load_models {M : Type} (outcome : Option M) (cache : Option (Option M)) :
    (Option M × Option (Option M)) × Bool :=
  match cache with
  | some r => ((r, some r), false)
  | none => ((outcome, some outcome), true)

/-- The spec's `ensure_loaded`, realized by `StudyAssistantApp.main`
(app_production.py:251-253): if `st.session_state.models` is already set the
call is a no-op; otherwise it invokes `load_models` and stores the result in
the session state.  Returns the new state and whether the loader body ran. -/
def ensure_loaded {M : Type} (outcome : Option M) (s : RegistryState M) :
    RegistryState M × Bool :=
  match s.models with
  | some _ => (s, false)
  | none =>
    let r := load_models outcome s.cache
    (⟨r.1.2, r.1.1⟩, r.2)

/-- C3 counterexample: start fresh, let the first load fail (the body
returns `None`, which `st.cache_resource` caches), then call again with an
outcome that would now succeed: the loader body does not run again and the
models remain unloaded — the failure was cached, not retried. -/
theorem load_retry_counterexample :
    (ensure_loaded (some 1) ((ensure_loaded (none : Option Nat) ⟨none, none⟩).1)).2 = false ∧
    (ensure_loaded (some 1) ((ensure_loaded (none : Option Nat) ⟨none, none⟩).1)).1.models =
      none :=
  ⟨rfl, rfl⟩

/-- C3 (amended): after a successful load every subsequent `ensure_loaded`
call returns the cached state without re-invoking the loader; after a failed
load the failure is cached as well — `load_models` swallows the exception
and returns `None`, `st.cache_resource` memoizes that `None`, and a
subsequent call returns it without retrying construction.  Only a fresh
state (nothing cached, nothing in the session) runs the loader body. -/
theorem load_cache_behavior {M : Type} (o : Option M) (s : RegistryState M) :
    (∀ m : M, s.models = some m → ensure_loaded o s = (s, false)) ∧
    (∀ r : Option M, s.cache = some r → (ensure_loaded o s).2 = false) ∧
    (s.cache = none → s.models = none →
      (ensure_loaded o s).2 = true ∧ (ensure_loaded o s).1.models = o ∧
        (ensure_loaded o s).1.cache = some o) := by
  refine ⟨?_, ?_, ?_⟩
  · intro m hm
    simp [ensure_loaded, hm]
  · intro r hr
    cases hs : s.models with
    | some m => simp [ensure_loaded, hs]
    | none => simp [ensure_loaded, hs, load_models, hr]
  · intro hc hm
    simp [ensure_loaded, hm, load_models, hc]

/-- Witness for C3's amended statement: with a cached failed load, a
retry does not run the loader body. -/
theorem load_cache_witness :
    ((⟨some none, none⟩ : RegistryState Nat).cache = some none) ∧
      (ensure_loaded (some 2) (⟨some none, none⟩ : RegistryState Nat)).2 = false :=
  ⟨rfl, (load_cache_behavior (some 2) ⟨some none, none⟩).2.1 none rfl⟩

/-- An upload as the question interface sees it: filename and raw content. -/
structure UploadBlob where
  name : String
  content : List Char
deriving DecidableEq

/-- The per-session document cache: `st.session_state.current_document` and
`st.session_state.document_text` (app_production.py:191-194). -/
structure DocSession where
  currentDocument : Option String
  documentText : Option (List Char)
deriving DecidableEq

/-- The upload-processing step of `question_answering_interface`
(app_production.py:353-361): extraction runs only when
`st.session_state.current_document != uploaded_file.name`; a truthy result
is stored in the session cache together with the filename, a falsy result
(extraction failure or empty text) leaves the session unchanged.  The
boolean reports whether extraction ran. -/
def uploadStep (extract : List Char → Option (List Char)) (s : DocSession) (f : UploadBlob) :
    DocSession × Bool :=
  if s.currentDocument = some f.name then (s, false)
  else
    match extract f.content with
    | some t => if t = [] then (s, true) else (⟨some f.name, some t⟩, true)
    | none => (s, true)

/-- C4 counterexample: re-uploading the same filename `"a.txt"` with
different content (hence a different content hash) does not trigger
re-extraction: the step compares only the filename and keeps serving the
stale cached text, although the claim demands re-extraction exactly when
the identity (content hash) changes. -/
theorem doc_cache_counterexample :
    uploadStep (fun c => some c) ⟨some "a.txt", some ['o', 'l', 'd']⟩ ⟨"a.txt", ['n', 'e', 'w']⟩ =
        (⟨some "a.txt", some ['o', 'l', 'd']⟩, false) ∧
      (['n', 'e', 'w'] : List Char) ≠ ['o', 'l', 'd'] := by
  constructor
  · decide
  · decide

/-- C4 (amended): extraction re-runs if and only if the uploaded filename
differs from the session's current document name; content plays no role in
the comparison (the content hash is never computed), so a re-upload under
the same filename — whatever its bytes — leaves the cached text untouched. -/
theorem doc_cache_by_filename (extract : List Char → Option (List Char)) (s : DocSession)
    (f : UploadBlob) :
    ((uploadStep extract s f).2 = true ↔ s.currentDocument ≠ some f.name) ∧
    (s.currentDocument = some f.name → uploadStep extract s f = (s, false)) := by
  constructor
  · by_cases h : s.currentDocument = some f.name
    · simp [uploadStep, h]
    · simp only [uploadStep, if_neg h]
      cases extract f.content with
      | some t =>
        by_cases ht : t = [] <;> simp [ht, h]
      | none => simp [h]
  · intro h
    simp [uploadStep, h]

/-- Witness for C4's amended statement: a same-filename re-upload is a
no-op. -/
theorem doc_cache_witness :
    ((⟨some "a", some ['o']⟩ : DocSession).currentDocument = some "a") ∧
      uploadStep (fun c => some c) ⟨some "a", some ['o']⟩ ⟨"a", ['n']⟩ =
        ((⟨some "a", some ['o']⟩ : DocSession), false) :=
  ⟨rfl, (doc_cache_by_filename _ _ _).2 rfl⟩

/-- Whitespace as Python's `str.split()` (no argument) treats it. -/
def isPySpace (c : Char) : Bool :=
  c = ' ' || c = '\t' || c = '\n' || c = '\r' || c = '\x0b' || c = '\x0c'

/-- Accumulator pass behind `pyWords`: split on runs of whitespace,
discarding empty tokens, as Python's `str.split()` does. -/
def pyWordsAux : List Char → List Char → List (List Char)
  | [], cur => if cur = [] then [] else [cur.reverse]
  | c :: rest, cur =>
    if isPySpace c then
      if cur = [] then pyWordsAux rest [] else cur.reverse :: pyWordsAux rest []
    else pyWordsAux rest (c :: cur)

/-- `len(s.split())`, the code's word count (app_production.py:460, 525). -/
def wordCount (l : List Char) : Nat := (pyWordsAux l []).length

/-- The summary loop of `summarization_interface` (app_production.py:458-467):
over the windows handed to it (the caller passes `chunks[:3]`), append the
summarizer's output for each window whose word count exceeds 50, preserving
window order. -/
def summariesLoop (summarize : List Char → List Char) : List (List Char) → List (List Char)
  | [] => []
  | c :: cs =>
    if 50 < wordCount c then summarize c :: summariesLoop summarize cs
    else summariesLoop summarize cs

/-- `final_summary = " ".join(summaries)` over the summaries of the first
three 3000-character windows (app_production.py:456-469). -/
def finalSummary (summarize : List Char → List Char) (text : List Char) : List Char :=
  pyJoin [' '] (summariesLoop summarize ((codeChunks 3000 text).take 3))

/-- `compression = (1 - len(final_summary)/len(text_content)) * 100`
(app_production.py:483), over the rationals. -/
def compressionPct (summarize : List Char → List Char) (text : List Char) : ℚ :=
  (1 - ((finalSummary summarize text).length : ℚ) / ((text.length : ℚ))) * 100

theorem summariesLoop_filter (sm : List Char → List Char) (l : List (List Char)) :
    summariesLoop sm l = (l.filter (fun c => decide (50 < wordCount c))).map sm := by
  induction l with
  | nil => rfl
  | cons c cs ih =>
    by_cases h : 50 < wordCount c <;> simp [summariesLoop, List.filter_cons, h, ih]

theorem codeChunks_take_prefix (m k : Nat) (hm : 0 < m) (t : List Char) :
    (codeChunks m (t.take (k * m))).take k = (codeChunks m t).take k := by
  apply List.ext_getElem?
  intro j
  by_cases hj : j < k
  · rw [List.getElem?_take_of_lt hj, List.getElem?_take_of_lt hj,
      codeChunks_getElem? m hm _ j, codeChunks_getElem? m hm _ j, List.length_take]
    have hjm : j * m + m ≤ k * m := by
      have hjk : j + 1 ≤ k := hj
      calc j * m + m = (j + 1) * m := by ring
        _ ≤ k * m := Nat.mul_le_mul_right m hjk
    by_cases hc : j * m < t.length
    · rw [if_pos (by omega), if_pos hc]
      congr 1
      rw [List.drop_take, List.take_take]
      congr 1
      omega
    · rw [if_neg (by omega), if_neg hc]
  · have e1 : ((codeChunks m (t.take (k * m))).take k)[j]? = none :=
      List.getElem?_eq_none_iff.mpr (by rw [List.length_take]; omega)
    have e2 : ((codeChunks m t).take k)[j]? = none :=
      List.getElem?_eq_none_iff.mpr (by rw [List.length_take]; omega)
    rw [e1, e2]

/-- C5: the Summarize task summarizes exactly the windows among the first
three whose word count exceeds 50 (later windows are dropped — the result
only depends on the first 9000 characters — and shorter windows are
skipped), joins the per-window summaries in window order with a single
separating space, and reports a compression percentage whose ratio form is
`1 - len(summary)/len(original_text)`. -/
theorem summarize_pipeline_spec (sm : List Char → List Char) (text : List Char) :
    finalSummary sm text =
      pyJoin [' ']
        ((((codeChunks 3000 text).take 3).filter (fun c => decide (50 < wordCount c))).map sm) ∧
    finalSummary sm text = finalSummary sm (text.take 9000) ∧
    compressionPct sm text / 100 =
      1 - ((finalSummary sm text).length : ℚ) / ((text.length : ℚ)) := by
  refine ⟨?_, ?_, ?_⟩
  · unfold finalSummary
    rw [summariesLoop_filter]
  · unfold finalSummary
    have h := codeChunks_take_prefix 3000 3 (by omega) text
    norm_num at h
    rw [h]
  · unfold compressionPct
    rw [mul_div_assoc]
    norm_num

/-- `text_content.split('.')` — split on every period, keeping empty
parts. -/
def splitOnDotAux : List Char → List Char → List (List Char)
  | [], cur => [cur.reverse]
  | c :: rest, cur =>
    if c = '.' then cur.reverse :: splitOnDotAux rest []
    else splitOnDotAux rest (c :: cur)

/-- `text_content.split('.')` of app_production.py:525. -/
def splitOnDot (l : List Char) : List (List Char) := splitOnDotAux l []

/-- Python's `str.strip()`: drop leading and trailing whitespace. -/
def pyStrip (l : List Char) : List Char :=
  ((l.dropWhile isPySpace).reverse.dropWhile isPySpace).reverse

/-- The sentence extraction of `quiz_interface` (app_production.py:525):
`[s.strip() for s in text_content.split('.') if len(s.split()) > 5]` —
split on periods, keep parts with more than 5 words, strip each survivor. -/
def quizSentences (text : List Char) : List (List Char) :=
  ((splitOnDot text).filter (fun s => decide (5 < wordCount s))).map pyStrip

/-- The literal prompt prefix of app_production.py:532. -/
def gqPrompt : List Char := "generate question: ".toList

/-- The quiz loop of `quiz_interface` (app_production.py:526-546): take the
first `n` surviving sentences (`sentences[:num_questions]`) and, for each in
order, dispatch the generation capability on the prompt built from the
sentence truncated to 200 characters, pairing the generated prompt with the
sentence as its reference span. -/
def quizItems (qg : List Char → List Char) (text : List Char) (n : Nat) :
    List (List Char × List Char) :=
  ((quizSentences text).take n).map (fun s => (qg (gqPrompt ++ s.take 200), s))

/-- A document with exactly two sentences above the 5-word substance
threshold (the trailing empty part after the final period has 0 words). -/
def exampleQuizText : List Char :=
  "one two three four five six seven. eight nine ten eleven twelve thirteen.".toList

/-- C7: GenerateQuiz returns exactly `min n (surviving units)` items — each
built, in source order, from a surviving sentence: the dispatched prompt is
the sentence truncated to the capability's 200-character input limit, and
the untruncated sentence is the reference span; in particular, requesting 5
questions of a text with only 2 surviving sentences yields exactly 2 items
(and no failure — the embedding is a total function). -/
theorem quiz_generation_spec (qg : List Char → List Char) (text : List Char) (n : Nat) :
    (quizItems qg text n).length = min n (quizSentences text).length ∧
    (∀ i : Nat, (quizItems qg text n)[i]? =
      ((quizSentences text).take n)[i]?.map (fun s => (qg (gqPrompt ++ s.take 200), s))) ∧
    (quizItems qg exampleQuizText 5).length = 2 := by
  refine ⟨?_, ?_, ?_⟩
  · unfold quizItems
    rw [List.length_map, List.length_take]
  · intro i
    unfold quizItems
    rw [List.getElem?_map]
  · unfold quizItems
    rw [List.length_map, List.length_take]
    have h2 : (quizSentences exampleQuizText).length = 2 := by decide
    rw [h2]
    rfl
